import Mathlib

/-!
Verification of the video upload-completion and background-indexing workflow
of the HiReadyContinued learning-analytics platform.

The embedding below follows the Express upload router
(server/routes/upload.ts, reproduced in src/R2_CORS_FIX.md lines 268-696):
the presigned-URL endpoint, the upload-completion endpoint, the
segmentation-completion webhook, the streaming endpoint, and the
segment-persistence updater updateLectureWithSegments.

Modelling conventions:
- JavaScript truthiness of the source is modelled explicitly: a request
  string field is "missing" exactly when it is the empty string (undefined
  and the empty string are both falsy in the checks of the form
  if (!userId || ...)), numbers are falsy exactly at 0, and the logical-or
  defaulting idiom (a || b || d) is modelled by truthyN / truthyS plus
  Option.orElse / Option.getD.
- The document store (MongoDB via mongoose) is modelled as an explicit
  DBState holding the Course and Lecturer collections as lists in
  insertion order; findOne is List.find? (first match) and save replaces
  the saved document in place (updateFirst).  Document reads are modelled
  as infallible; document saves may fail, which is modelled by the save
  oracle in UpdEnv where the source's try/catch behaviour matters.
- The AI (Flask) service is modelled as an oracle giving the outcome of
  each HTTP attempt; tryFlask reproduces the retry loop of the source.
- Presigned-URL issuance (getSignedUrl of the aws-sdk s3-request-presigner)
  is a purely local signature computation: it never contacts the object
  store and cannot observe whether a key exists.  It is therefore modelled
  as a total function from the signed command to a SignedUrl value.
-/

namespace HiReady

/-- JavaScript truthiness for a possibly-absent number: undefined and 0 are
falsy. Models the source idiom seg.start || seg.startTime || 0. -/
def truthyN (v : Option Int) : Option Int :=
  v.bind (fun x => if x = 0 then none else some x)

/-- JavaScript truthiness for a possibly-absent string: undefined and the
empty string are falsy. Models the source idiom seg.title || seg.name || d. -/
def truthyS (v : Option String) : Option String :=
  v.bind (fun s => if s = "" then none else some s)

/-- Replace the first element satisfying p by its image under f, leaving the
rest unchanged.  This is the effect on the stored collection of the source
pattern findIndex followed by in-place mutation and save, and likewise of a
mongoose findOne followed by save. -/
def updateFirst (p : α → Bool) (f : α → α) : List α → List α
  | [] => []
  | a :: as => if p a then f a :: as else a :: updateFirst p f as

/-- Attempt outcomes of the retry helper: tryFlaskFrom f i n performs
attempt i and up to n further attempts, returning the first success.
Models the loop of tryFlask in the source (for i = 0..retries). -/
def tryFlaskFrom (f : Nat → Option α) : Nat → Nat → Option α
  | i, 0 => f i
  | i, Nat.succ n =>
    match f i with
    | some x => some x
    | none => tryFlaskFrom f (i + 1) n

/-- tryFlask of the source: initial attempt plus retries further attempts
(the source default is retries = 2, so three attempts in total); the
1-second delay between attempts has no observable effect here. -/
def tryFlask (f : Nat → Option α) (retries : Nat) : Option α :=
  tryFlaskFrom f 0 retries

/-- A normalized lecture segment, as stored: the {start, end, title, summary}
record produced by the normalization in updateLectureWithSegments. -/
structure Segment where
  start : Int
  «end» : Int
  title : String
  summary : String
deriving DecidableEq, Repr

/-- A raw segment as received from the AI service: every field may be
absent, and the field-name variants startTime / endTime / name may be used
instead of start / end / title. -/
structure InputSegment where
  start : Option Int
  startTime : Option Int
  «end» : Option Int
  endTime : Option Int
  title : Option String
  name : Option String
  summary : Option String
deriving DecidableEq, Repr

/-- Normalization of one raw segment, from updateLectureWithSegments:
start := seg.start || seg.startTime || 0, end := seg.end || seg.endTime || 0,
title := seg.title || seg.name || "Untitled Segment",
summary := seg.summary || "". -/
def normalizeSegment (seg : InputSegment) : Segment :=
  { start := ((truthyN seg.start).orElse (fun _ => truthyN seg.startTime)).getD 0
    «end» := ((truthyN seg.«end»).orElse (fun _ => truthyN seg.endTime)).getD 0
    title := ((truthyS seg.title).orElse (fun _ => truthyS seg.name)).getD "Untitled Segment"
    summary := (truthyS seg.summary).getD "" }

/-- Modelled from the spec: the Lecture record (models/Lecturer.ts and
models/Course.ts are not under src/).  Field names and shapes follow the
spec data model and the fields actually read and written by the router:
lectureSegments is absent (none) until indexing completes, and
rawAiMetaData is an opaque record modelled as a string, with the empty
object written as the string "\x7b\x7d" spelled emptyMeta below. -/
structure Lecture where
  lectureId : String
  lectureTitle : String
  courseId : String
  videoUrl : String
  createdAt : Nat
  studentRewindEvents : List String
  lectureSegments : Option (List Segment)
  rawAiMetaData : String
deriving DecidableEq, Repr

/-- The empty rawAiMetaData object, written by the source as the object
literal when fullAiData is null (fullAiData || ...). -/
def emptyMeta : String := "\x7b\x7d"

/-- Modelled from the spec: the Course document (models/Course.ts is not
under src/): courseId unique, owned by one instructor, embedded lectures. -/
structure Course where
  courseId : String
  courseName : String
  instructorId : String
  lectures : List Lecture
deriving DecidableEq, Repr

/-- Modelled from the spec: the Lecturer aggregate (models/Lecturer.ts is
not under src/): one document per instructor userId with embedded
denormalized lectures. -/
structure Lecturer where
  userId : String
  lectures : List Lecture
deriving DecidableEq, Repr

/-- The document store state: the Course and Lecturer collections, in
insertion order (findOne returns the first match). -/
structure DBState where
  courses : List Course
  lecturers : List Lecturer
deriving DecidableEq, Repr

/-- A document-store write performed by the segment-persistence updater,
carrying the segment list written, in the order the saves are issued. -/
inductive WriteEvent where
  | courseWrite (courseId : String) (segments : List Segment)
  | lecturerWrite (userId : String) (segments : List Segment)
deriving DecidableEq, Repr

/-- Environment of one updater invocation: whether each document save
succeeds (true) or throws (false).  Reads are modelled as infallible; a
throwing save aborts the remaining writes and is caught by the updater's
catch-all, exactly as in the source. -/
structure UpdEnv where
  courseSaveOk : Bool
  lecturerSaveOk : String → Bool

/-- The failure-free environment: every save succeeds. -/
def allSavesOk : UpdEnv := ⟨true, fun _ => true⟩

/-- Outcome of one updater invocation: the resulting store state, the
sequence of saves performed, and whether an error was thrown (and caught). -/
structure UpdOutcome where
  state : DBState
  trace : List WriteEvent
  errored : Bool
deriving Repr

/-- Overwrite of one embedded lecture by the updater:
lectures[i].lectureSegments = lectureSegments and
lectures[i].rawAiMetaData = fullAiData || the empty object. -/
def updLecture (segs : List Segment) (meta : String) (l : Lecture) : Lecture :=
  { l with lectureSegments := some segs, rawAiMetaData := meta }

/-- The updater's overwrite on one Course document: mutate the first
embedded lecture with the given lectureId, as found by findIndex. -/
def updCourse (lectureId : String) (segs : List Segment) (meta : String)
    (c : Course) : Course :=
  { c with lectures :=
      updateFirst (fun l => l.lectureId == lectureId) (updLecture segs meta) c.lectures }

/-- The updater's overwrite on one Lecturer aggregate: mutate the first
embedded lecture with the given lectureId, as found by findIndex. -/
def updLecturer (lectureId : String) (segs : List Segment) (meta : String)
    (L : Lecturer) : Lecturer :=
  { L with lectures :=
      updateFirst (fun l => l.lectureId == lectureId) (updLecture segs meta) L.lectures }

/-- Course phase of updateLectureWithSegments: Course.findOne({courseId});
if found and it embeds a lecture with the given lectureId, overwrite that
lecture (first match) and save.  Returns the new collection, the writes,
and whether the save threw. -/
def updateCoursePhase (env : UpdEnv) (lectureId courseId : String)
    (segs : List Segment) (meta : String) (courses : List Course) :
    List Course × List WriteEvent × Bool :=
  match courses.find? (fun c => c.courseId == courseId) with
  | none => (courses, [], false)
  | some c =>
    if c.lectures.any (fun l => l.lectureId == lectureId) then
      if env.courseSaveOk then
        (updateFirst (fun c2 => c2.courseId == courseId) (updCourse lectureId segs meta) courses,
         [WriteEvent.courseWrite courseId segs], false)
      else (courses, [], true)
    else (courses, [], false)

/-- Lecturer phase of updateLectureWithSegments:
Lecturer.find({lectures.lectureId : lectureId}) and, for each matching
lecturer in collection order, overwrite the first matching embedded lecture
and save; a throwing save aborts the remaining saves. -/
def updateLecturersPhase (env : UpdEnv) (lectureId : String)
    (segs : List Segment) (meta : String) :
    List Lecturer → List Lecturer × List WriteEvent × Bool
  | [] => ([], [], false)
  | L :: rest =>
    if L.lectures.any (fun l => l.lectureId == lectureId) then
      if env.lecturerSaveOk L.userId then
        let out := updateLecturersPhase env lectureId segs meta rest
        (updLecturer lectureId segs meta L :: out.1,
         WriteEvent.lecturerWrite L.userId segs :: out.2.1, out.2.2)
      else (L :: rest, [], true)
    else
      let out := updateLecturersPhase env lectureId segs meta rest
      (L :: out.1, out.2.1, out.2.2)

/-- updateLectureWithSegments (the Segment Persistence Updater, ApplySegments
of the spec): normalizes the incoming segments, overwrites the matching
lecture of the Course document (first), then of every matching Lecturer
aggregate, each save sequential; every thrown error is caught inside (the
function never propagates an error).  The videoId parameter is accepted and
unused, as in the source. -/
def updateLectureWithSegments (env : UpdEnv) (lectureId courseId : String)
    (segments : List InputSegment) (fullAiData : Option String)
    (videoId : Option String) (st : DBState) : UpdOutcome :=
  let _ := videoId
  let lectureSegments := segments.map normalizeSegment
  let meta := fullAiData.getD emptyMeta
  let courseOut := updateCoursePhase env lectureId courseId lectureSegments meta st.courses
  if courseOut.2.2 then
    { state := { courses := courseOut.1, lecturers := st.lecturers }
      trace := courseOut.2.1, errored := true }
  else
    let lectOut := updateLecturersPhase env lectureId lectureSegments meta st.lecturers
    { state := { courses := courseOut.1, lecturers := lectOut.1 }
      trace := courseOut.2.1 ++ lectOut.2.1, errored := lectOut.2.2 }

/-- An object-store command signed by the router: PutObject for uploads,
GetObject for downloads/streaming. -/
inductive S3Command where
  | putObject (bucket key contentType : String)
  | getObject (bucket key : String)
deriving DecidableEq, Repr

/-- A presigned URL: the signed command together with its expiry in
seconds.  Modelled from the aws-sdk s3-request-presigner: getSignedUrl is
a purely local signature computation over the command and the expiry; it
never contacts the object store and in particular cannot observe whether
the key exists. -/
structure SignedUrl where
  command : S3Command
  expiresIn : Nat
deriving DecidableEq, Repr

/-- getSignedUrl of the aws-sdk presigner (local, total, store-independent). -/
def getSignedUrl (command : S3Command) (expiresIn : Nat) : SignedUrl :=
  { command := command, expiresIn := expiresIn }

/-- Modelled from the spec: generateVideoKey of server/utils/r2.ts (not
under src/), producing the content key with the pattern
userId slash lectureId slash filename. -/
def generateVideoKey (userId lectureId filename : String) : String :=
  userId ++ "/" ++ lectureId ++ "/" ++ filename

/-- Modelled from the spec: getVideoUrl of server/utils/r2.ts (not under
src/), the public/streaming locator of a stored object.  No claim depends
on its concrete form, so the key itself stands for the URL. -/
def getVideoUrl (key : String) : String := key

/-- R2 configuration from the environment: the empty string models an
unconfigured bucket (the source checks if (!BUCKET_NAME)). -/
structure R2Config where
  bucketName : String
deriving DecidableEq, Repr

/-- Request body of POST /upload/presigned-url; the empty string models an
absent field (both are falsy in the required-field check). -/
structure PresignReq where
  userId : String
  lectureId : String
  filename : String
  contentType : String
deriving DecidableEq, Repr

/-- Response of POST /upload/presigned-url. -/
inductive PresignResult where
  | badRequest (error : String)
  | configError (error : String)
  | ok (presignedUrl : SignedUrl) (key : String) (publicUrl : String)
deriving DecidableEq, Repr

/-- The allowed video extensions of the source. -/
def validExtensions : List String := ["mp4", "webm", "mov", "avi", "mkv"]

/-- The last dot-separated component of a character list: cur is the
component read so far, reset at every dot.  On the characters of s this is
exactly the last element of s.split("."), the value of
s.split(".").pop(). -/
def lastDotComponent (cur : List Char) : List Char → List Char
  | [] => cur
  | c :: rest => if c = '.' then lastDotComponent [] rest else lastDotComponent (cur ++ [c]) rest

/-- Extension extraction of the source:
filename.split(".").pop()?.toLowerCase(). -/
def extensionOf (filename : String) : String :=
  String.mk ((lastDotComponent [] filename.data).map Char.toLower)

/-- POST /upload/presigned-url: validates the required fields, the bucket
configuration and the filename extension, then signs a PutObject command
with a 3600-second expiry.  The second component is the list of signing
calls performed (empty exactly when no URL is signed). -/
def presignedUrlHandler (cfg : R2Config) (req : PresignReq) :
    PresignResult × List SignedUrl :=
  if req.userId = "" ∨ req.lectureId = "" ∨ req.filename = "" then
    (.badRequest "Missing required fields: userId, lectureId, filename", [])
  else if cfg.bucketName = "" then
    (.configError "R2 bucket configuration missing.", [])
  else
    let extension := extensionOf req.filename
    if extension = "" ∨ ¬ (extension ∈ validExtensions) then
      (.badRequest "Invalid file type. Only video files are allowed.", [])
    else
      let key := generateVideoKey req.userId req.lectureId req.filename
      let contentType := if req.contentType ≠ "" then req.contentType else "video/" ++ extension
      let url := getSignedUrl (.putObject cfg.bucketName key contentType) 3600
      (.ok url key (getVideoUrl key), [url])

/-- One response of the Flask index-video endpoint, as seen through the
axios response: the payload carries task_id and status.  The source's
second fallback (reading task_id directly off the axios response object
rather than off its data payload) is always undefined on an axios response
and therefore contributes nothing. -/
structure IndexRespData where
  task_id : Option String
  status : Option String
deriving DecidableEq, Repr

/-- Flask-service environment of one CompleteUpload invocation: the outcome
of each health-check attempt and of each index-video attempt (none models a
thrown/failed HTTP call, consumed by tryFlask). -/
structure FlaskEnv where
  healthAttempts : Nat → Option Unit
  indexAttempts : Nat → Option IndexRespData

/-- The task id obtained by the synchronous part of POST /upload/complete:
none unless the health check succeeds within its retries, the index-video
call succeeds within its retries, and its payload carries a truthy task_id. -/
def taskIdObtained (env : FlaskEnv) : Option String :=
  match tryFlask env.healthAttempts 2 with
  | none => none
  | some _ =>
    match tryFlask env.indexAttempts 2 with
    | none => none
    | some resp => truthyS resp.task_id

/-- Request body of POST /upload/complete; the empty string models an
absent field (lectureTitle is optional and defaulted). -/
structure CompleteReq where
  userId : String
  lectureId : String
  videoKey : String
  lectureTitle : String
  courseId : String
deriving DecidableEq, Repr

/-- Response of POST /upload/complete: data carries lectureId, the raw
segments accumulator, and the indexingInProgress flag. -/
inductive CompleteResult where
  | badRequest (error : String)
  | notFound (error : String)
  | forbidden (error : String)
  | ok (message : String) (lectureId : String) (segments : List InputSegment)
      (indexingInProgress : Bool)
deriving DecidableEq, Repr

/-- Upsert of the freshly built lecture record into an embedded lecture
list: findIndex by lectureId then Object.assign over the existing subdocument
(every field of the record is assigned, including lectureSegments when it is
undefined, so the assignment is a full replacement), else push. -/
def upsertByLectureId (lid : String) (ld : Lecture) (ls : List Lecture) : List Lecture :=
  if ls.any (fun l => l.lectureId == lid) then
    updateFirst (fun l => l.lectureId == lid) (fun _ => ld) ls
  else ls ++ [ld]

/-- POST /upload/complete (CompleteUpload): required-field check, course
lookup and ownership check, presigned GET for the AI service, health check
with retries, indexing trigger with retries, fire-and-forget segmentation
(not awaited: no synchronous effect), synchronous upsert of the lecture
into the Course document and the caller's Lecturer aggregate, and the
success response.  The local segments accumulator and fullAiData are
initialized empty/null and are never written by the synchronous path (only
the asynchronous continuation's own variables receive segments).  now is
the request timestamp (new Date()). -/
def completeUpload (env : FlaskEnv) (req : CompleteReq) (now : Nat)
    (st : DBState) : CompleteResult × DBState :=
  if req.userId = "" ∨ req.lectureId = "" ∨ req.videoKey = "" ∨ req.courseId = "" then
    (.badRequest "Missing required fields", st)
  else
    match st.courses.find? (fun c => c.courseId == req.courseId) with
    | none => (.notFound ("Course " ++ req.courseId ++ " not found."), st)
    | some course =>
      if course.instructorId ≠ req.userId then (.forbidden "Permission denied", st)
      else
        let _signedDownloadUrl :=
          getSignedUrl (.getObject "" req.videoKey) 3600
        let segments : List InputSegment := []
        let fullAiData : Option String := none
        let taskIdFromTask := taskIdObtained env
        let lectureSegments := segments.map normalizeSegment
        let lectureData : Lecture :=
          { lectureId := req.lectureId
            lectureTitle := if req.lectureTitle ≠ "" then req.lectureTitle else "Untitled Lecture"
            courseId := req.courseId
            videoUrl := getVideoUrl req.videoKey
            createdAt := now
            studentRewindEvents := []
            lectureSegments := if lectureSegments.length > 0 then some lectureSegments else none
            rawAiMetaData := fullAiData.getD emptyMeta }
        let courses2 :=
          updateFirst (fun c => c.courseId == req.courseId)
            (fun c => { c with lectures := upsertByLectureId req.lectureId lectureData c.lectures })
            st.courses
        let lecturers2 :=
          match st.lecturers.find? (fun L => L.userId == req.userId) with
          | none => st.lecturers ++ [{ userId := req.userId, lectures := [lectureData] }]
          | some _ =>
            updateFirst (fun L => L.userId == req.userId)
              (fun L => { L with lectures := upsertByLectureId req.lectureId lectureData L.lectures })
              st.lecturers
        (.ok (if taskIdFromTask.isSome then
                "Upload completed. Video indexing is processing in the background (may take 15+ minutes). Segments will appear automatically when ready."
              else "Upload completed and database updated")
             req.lectureId
             (if segments.length > 0 then segments else [])
             (taskIdFromTask.isSome && segments.length == 0),
         { courses := courses2, lecturers := lecturers2 })

/-- Request body of POST /upload/segmentation-complete; segments is none
when the field is absent (an empty segment array is present, hence truthy,
in JavaScript), courseId/videoId may be absent. -/
structure WebhookReq where
  lectureId : String
  courseId : String
  segments : Option (List InputSegment)
  rawAiMetaData : Option String
  videoId : Option String
deriving DecidableEq, Repr

/-- Response of POST /upload/segmentation-complete. -/
inductive WebhookResult where
  | badRequest (error : String)
  | ok (message : String)
deriving DecidableEq, Repr

/-- POST /upload/segmentation-complete (SegmentationWebhook): required-field
check, then one awaited invocation of the updater and an unconditional
success response; the updater catches every error internally, so the
handler's own catch branch is unreachable. -/
def segmentationComplete (env : UpdEnv) (req : WebhookReq) (st : DBState) :
    WebhookResult × UpdOutcome :=
  if req.lectureId = "" ∨ req.segments = none then
    (.badRequest "Missing required fields: lectureId, segments",
     { state := st, trace := [], errored := false })
  else
    let out := updateLectureWithSegments env req.lectureId req.courseId
      (req.segments.getD []) req.rawAiMetaData req.videoId st
    (.ok "Segments updated", out)

/-- Value of one hexadecimal digit, none on a non-hex character. -/
def hexDigitVal (c : Char) : Option Nat :=
  if '0' ≤ c ∧ c ≤ '9' then some (c.toNat - 48)
  else if 'a' ≤ c ∧ c ≤ 'f' then some (c.toNat - 87)
  else if 'A' ≤ c ∧ c ≤ 'F' then some (c.toNat - 55)
  else none

/-- Byte value of two hexadecimal digits, none unless both are hex. -/
def hexByte (a b : Char) : Option Nat :=
  match hexDigitVal a, hexDigitVal b with
  | some x, some y => some (16 * x + y)
  | _, _ => none

/-- Escape tokens of decodeURIComponent: an unescaped character, or the
byte value of one complete percent-escape. -/
inductive UriTok where
  | raw (c : Char)
  | byte (b : Nat)
deriving DecidableEq, Repr

/-- First pass of decodeURIComponent over the characters: every percent
sign must be followed by exactly two hexadecimal digits (its byte), else
the whole decode throws URIError (none). -/
def uriTokens : List Char → Option (List UriTok)
  | [] => some []
  | '%' :: a :: b :: rest =>
    match hexByte a b with
    | some v => (uriTokens rest).map (UriTok.byte v :: ·)
    | none => none
  | '%' :: _ => none
  | c :: rest => (uriTokens rest).map (UriTok.raw c :: ·)

/-- Second pass of decodeURIComponent: the escape bytes must form valid,
minimal UTF-8 (continuation bytes in range per lead byte, no overlong
forms, no surrogates, at most U+10FFFF), else URIError (none); a valid
sequence yields its code point. -/
def utf8DecodeToks : List UriTok → Option (List Char)
  | [] => some []
  | .raw c :: rest => (utf8DecodeToks rest).map (c :: ·)
  | .byte b1 :: rest =>
    if b1 < 0x80 then (utf8DecodeToks rest).map (Char.ofNat b1 :: ·)
    else if b1 < 0xC2 then none
    else if b1 < 0xE0 then
      match rest with
      | .byte b2 :: rest2 =>
        if 0x80 ≤ b2 ∧ b2 < 0xC0 then
          (utf8DecodeToks rest2).map
            (Char.ofNat ((b1 - 0xC0) * 0x40 + (b2 - 0x80)) :: ·)
        else none
      | _ => none
    else if b1 < 0xF0 then
      match rest with
      | .byte b2 :: .byte b3 :: rest3 =>
        if (if b1 = 0xE0 then 0xA0 else 0x80) ≤ b2 ∧
            b2 < (if b1 = 0xED then 0xA0 else 0xC0) ∧
            0x80 ≤ b3 ∧ b3 < 0xC0 then
          (utf8DecodeToks rest3).map
            (Char.ofNat ((b1 - 0xE0) * 0x1000 + (b2 - 0x80) * 0x40 + (b3 - 0x80)) :: ·)
        else none
      | _ => none
    else if b1 < 0xF5 then
      match rest with
      | .byte b2 :: .byte b3 :: .byte b4 :: rest4 =>
        if (if b1 = 0xF0 then 0x90 else 0x80) ≤ b2 ∧
            b2 < (if b1 = 0xF4 then 0x90 else 0xC0) ∧
            0x80 ≤ b3 ∧ b3 < 0xC0 ∧ 0x80 ≤ b4 ∧ b4 < 0xC0 then
          (utf8DecodeToks rest4).map
            (Char.ofNat ((b1 - 0xF0) * 0x40000 + (b2 - 0x80) * 0x1000
              + (b3 - 0x80) * 0x40 + (b4 - 0x80)) :: ·)
        else none
      | _ => none
    else none

/-- decodeURIComponent as used on the videoKey route parameter: none
models a thrown URIError (a percent sign not followed by two hexadecimal
digits, or escape bytes that are not a valid UTF-8 encoding), which the
route's catch turns into a 500 response since the error name URIError is
not NoSuchKey. -/
def decodeURIComponent (s : String) : Option String :=
  match uriTokens s.data with
  | none => none
  | some toks => (utf8DecodeToks toks).map String.mk

/-- Response of GET /upload/stream/:videoKey.  notFound is produced only
when URL generation throws an error named NoSuchKey; since presigning is a
local computation, that branch is unreachable in this model.  serverError
is the catch's fallback 500, reached when decodeURIComponent throws. -/
inductive StreamResult where
  | configError (error : String)
  | notFound (error : String)
  | serverError (error : String)
  | ok (streamUrl : SignedUrl) (expiresIn : Nat)
deriving DecidableEq, Repr

/-- True exactly on the notFound response. -/
def StreamResult.isNotFound : StreamResult → Bool
  | .notFound _ => true
  | _ => false

/-- GET /upload/stream/:videoKey (IssueStreamURL): bucket check, a second
decode of the already-route-decoded key (throwing on malformed input,
caught as a 500), and a presigned GetObject URL with a 3600-second expiry.
The store parameter is the set of keys currently present in the object
store; the handler performs no store call, so the result cannot depend on
it. -/
def streamHandler (cfg : R2Config) (store : List String) (videoKey : String) :
    StreamResult × List SignedUrl :=
  let _ := store
  if cfg.bucketName = "" then (.configError "R2 bucket configuration missing", [])
  else
    match decodeURIComponent videoKey with
    | none => (.serverError "Failed to generate stream URL", [])
    | some decodedKey =>
      let url := getSignedUrl (.getObject cfg.bucketName decodedKey) 3600
      (.ok url 3600, [url])

/-- The lecture record built by the synchronous part of POST
/upload/complete, after evaluation of its two conditionals at the
always-empty segments accumulator: no lectureSegments field is written
(undefined) and rawAiMetaData is the empty object. -/
def lectureDataOf (req : CompleteReq) (now : Nat) : Lecture :=
  { lectureId := req.lectureId
    lectureTitle := if req.lectureTitle ≠ "" then req.lectureTitle else "Untitled Lecture"
    courseId := req.courseId
    videoUrl := getVideoUrl req.videoKey
    createdAt := now
    studentRewindEvents := []
    lectureSegments := none
    rawAiMetaData := emptyMeta }

/-- Concrete Flask environment in which every HTTP attempt fails. -/
def envNoFlask : FlaskEnv := ⟨fun _ => none, fun _ => none⟩

/-- Concrete course owned by owner1, with no lectures yet. -/
def courseC1 : Course :=
  { courseId := "C1", courseName := "Algorithms", instructorId := "owner1", lectures := [] }

/-- Concrete store holding exactly courseC1 and no lecturer aggregates. -/
def stOneCourse : DBState := { courses := [courseC1], lecturers := [] }

/-- Concrete well-formed completion request by the course owner. -/
def exReq : CompleteReq :=
  { userId := "owner1", lectureId := "L1", videoKey := "owner1/L1/v.mp4"
    lectureTitle := "Intro", courseId := "C1" }

/-! Generic lemmas about updateFirst and find?. -/

theorem updateFirst_self_eq {p : α → Bool} {f : α → α}
    (hp : ∀ a, p a = true → p (f a) = true)
    (hf : ∀ a, p a = true → f (f a) = f a) :
    ∀ l : List α, updateFirst p f (updateFirst p f l) = updateFirst p f l
  | [] => rfl
  | a :: as => by
    by_cases h : p a = true
    · simp [updateFirst, h, hp a h, hf a h]
    · simp [updateFirst, h, updateFirst_self_eq hp hf as]

theorem find?_updateFirst {p : α → Bool} {f : α → α}
    (hp : ∀ a, p a = true → p (f a) = true) :
    ∀ l : List α, (updateFirst p f l).find? p = (l.find? p).map f
  | [] => rfl
  | a :: as => by
    by_cases h : p a = true
    · simp [updateFirst, h, List.find?_cons, hp a h]
    · simp [updateFirst, h, List.find?_cons, find?_updateFirst hp as]

theorem any_updateFirst {p q : α → Bool} {f : α → α}
    (hq : ∀ a, q (f a) = q a) :
    ∀ l : List α, (updateFirst p f l).any q = l.any q
  | [] => rfl
  | a :: as => by
    by_cases h : p a = true
    · simp [updateFirst, h, hq a]
    · simp [updateFirst, h, any_updateFirst hq as]

theorem find?_append_none {p : α → Bool} {l1 : List α}
    (h : l1.find? p = none) (l2 : List α) :
    (l1 ++ l2).find? p = l2.find? p := by
  rw [List.find?_append, h, Option.none_or]

theorem find?_upsertByLectureId {lid : String} {ld : Lecture}
    (hld : ld.lectureId = lid) (ls : List Lecture) :
    (upsertByLectureId lid ld ls).find? (fun l => l.lectureId == lid) = some ld := by
  have hpld : (ld.lectureId == lid) = true := by simp [hld]
  unfold upsertByLectureId
  by_cases hany : ls.any (fun l => l.lectureId == lid) = true
  · simp only [hany, if_true]
    rw [@find?_updateFirst _ (fun l => l.lectureId == lid) (fun _ => ld)
      (fun a _ => hpld) ls]
    have hsome : ∃ y, ls.find? (fun l => l.lectureId == lid) = some y := by
      obtain ⟨x, hx, hpx⟩ := List.any_eq_true.mp hany
      exact Option.isSome_iff_exists.mp (List.find?_isSome.mpr ⟨x, hx, hpx⟩)
    obtain ⟨y, hy⟩ := hsome
    simp [hy]
  · simp only [hany, if_false, Bool.false_eq_true]
    have hnone : ls.find? (fun l => l.lectureId == lid) = none := by
      rw [List.find?_eq_none]
      intro x hx
      intro hpx
      exact hany (List.any_eq_true.mpr ⟨x, hx, hpx⟩)
    rw [find?_append_none hnone]
    simp [List.find?_cons, hpld]

/-! Facts about the retry helper. -/

theorem tryFlask_eq_none_of_attempts {f : Nat → Option α}
    (h : ∀ i, i ≤ 2 → f i = none) : tryFlask f 2 = none := by
  simp [tryFlask, tryFlaskFrom, h 0 (by omega), h 1 (by omega), h 2 (by omega)]

/-! Facts about the lecture overwrite of the updater. -/

theorem updLecture_lectureId (segs : List Segment) (meta : String) (l : Lecture) :
    (updLecture segs meta l).lectureId = l.lectureId := rfl

theorem updLecture_self (segs : List Segment) (meta : String) (l : Lecture) :
    updLecture segs meta (updLecture segs meta l) = updLecture segs meta l := rfl

/-! Field-name-variant apparatus for the normalization claim: one abstract
tuple of per-field values, rendered once with the canonical field names and
once with the alternate field names. -/

/-- Per-field values of one segment, independent of the field names used. -/
structure SegmentValues where
  startVal : Option Int
  endVal : Option Int
  titleVal : Option String
  summaryVal : Option String
deriving DecidableEq, Repr

/-- The values rendered with the canonical field names start / end / title. -/
def canonicalSegment (v : SegmentValues) : InputSegment :=
  { start := v.startVal, startTime := none, «end» := v.endVal, endTime := none
    title := v.titleVal, name := none, summary := v.summaryVal }

/-- The values rendered with the alternate field names
startTime / endTime / name. -/
def alternateSegment (v : SegmentValues) : InputSegment :=
  { start := none, startTime := v.startVal, «end» := none, endTime := v.endVal
    title := none, name := v.titleVal, summary := v.summaryVal }

theorem none_orElse_comm (a : Option α) :
    ((none : Option α).orElse fun _ => a) = a.orElse fun _ => (none : Option α) := by
  cases a <;> rfl

theorem normalizeSegment_alternate (v : SegmentValues) :
    normalizeSegment (alternateSegment v) = normalizeSegment (canonicalSegment v) := by
  simp only [normalizeSegment, alternateSegment, canonicalSegment]
  simp only [show truthyN none = none from rfl, show truthyS none = none from rfl,
    none_orElse_comm]

theorem map_normalize_alternate (vals : List SegmentValues) :
    (vals.map alternateSegment).map normalizeSegment
      = (vals.map canonicalSegment).map normalizeSegment := by
  rw [List.map_map, List.map_map]
  exact List.map_congr_left (fun v _ => normalizeSegment_alternate v)

/-- C4: a segment list carrying the alternate field names
startTime / endTime / name with the same values as a list carrying the
canonical names start / end / title normalizes to identical
start-end-title-summary records under ApplySegments (so the updater's whole
outcome is identical for the two renderings), and a segment with every
field missing defaults to 0, 0, "Untitled Segment" and the empty summary. -/
theorem applySegments_normalizes_field_name_variants
    (vals : List SegmentValues) (env : UpdEnv) (lid cid : String)
    (meta vid : Option String) (st : DBState) :
    (vals.map alternateSegment).map normalizeSegment
        = (vals.map canonicalSegment).map normalizeSegment ∧
    updateLectureWithSegments env lid cid (vals.map alternateSegment) meta vid st
        = updateLectureWithSegments env lid cid (vals.map canonicalSegment) meta vid st ∧
    normalizeSegment ⟨none, none, none, none, none, none, none⟩
        = ⟨0, 0, "Untitled Segment", ""⟩ := by
  refine ⟨map_normalize_alternate vals, ?_, rfl⟩
  unfold updateLectureWithSegments
  rw [map_normalize_alternate vals]

/-- C5: for a request with the required fields present, the bucket
configured and an allowed filename extension, the presigned-url endpoint
returns the key with userId and lectureId as its leading path components
and a presigned PutObject URL whose expiry is 3600 seconds. -/
theorem presignedUrl_allowed_extension_key_and_expiry
    (cfg : R2Config) (req : PresignReq)
    (hu : req.userId ≠ "") (hl : req.lectureId ≠ "") (hf : req.filename ≠ "")
    (hb : cfg.bucketName ≠ "")
    (hext : extensionOf req.filename ∈ validExtensions) :
    ∃ url ct,
      presignedUrlHandler cfg req =
        (PresignResult.ok url (req.userId ++ "/" ++ req.lectureId ++ "/" ++ req.filename)
          (getVideoUrl (req.userId ++ "/" ++ req.lectureId ++ "/" ++ req.filename)),
         [url]) ∧
      url.command = S3Command.putObject cfg.bucketName
        (req.userId ++ "/" ++ req.lectureId ++ "/" ++ req.filename) ct ∧
      url.expiresIn = 3600 := by
  have hne : extensionOf req.filename ≠ "" := by
    intro h
    rw [h] at hext
    simp [validExtensions] at hext
  refine ⟨getSignedUrl (S3Command.putObject cfg.bucketName
      (generateVideoKey req.userId req.lectureId req.filename)
      (if req.contentType ≠ "" then req.contentType else "video/" ++ extensionOf req.filename))
      3600,
    (if req.contentType ≠ "" then req.contentType else "video/" ++ extensionOf req.filename),
    ?_, rfl, rfl⟩
  simp [presignedUrlHandler, hu, hl, hf, hb, hne, hext, generateVideoKey]

/-- Witness for C5 at a concrete request (also exercising the lowercasing
of the extension). -/
theorem presignedUrl_allowed_extension_key_and_expiry_witness :
    extensionOf "Lecture1.MP4" ∈ validExtensions ∧
    (∃ url ct,
      presignedUrlHandler ⟨"hiready-videos"⟩ ⟨"u1", "L1", "Lecture1.MP4", ""⟩ =
        (PresignResult.ok url ("u1" ++ "/" ++ "L1" ++ "/" ++ "Lecture1.MP4")
          (getVideoUrl ("u1" ++ "/" ++ "L1" ++ "/" ++ "Lecture1.MP4")),
         [url]) ∧
      url.command = S3Command.putObject "hiready-videos"
        ("u1" ++ "/" ++ "L1" ++ "/" ++ "Lecture1.MP4") ct ∧
      url.expiresIn = 3600) :=
  ⟨by decide,
   presignedUrl_allowed_extension_key_and_expiry ⟨"hiready-videos"⟩
     ⟨"u1", "L1", "Lecture1.MP4", ""⟩
     (by decide) (by decide) (by decide) (by decide) (by decide)⟩

/-- C6: for a request with the required fields present and the bucket
configured but with a disallowed filename extension, the presigned-url
endpoint answers ValidationError (HTTP 400) and signs no URL. -/
theorem presignedUrl_invalid_extension_rejected
    (cfg : R2Config) (req : PresignReq)
    (hu : req.userId ≠ "") (hl : req.lectureId ≠ "") (hf : req.filename ≠ "")
    (hb : cfg.bucketName ≠ "")
    (hbad : ¬ extensionOf req.filename ∈ validExtensions) :
    presignedUrlHandler cfg req =
      (PresignResult.badRequest "Invalid file type. Only video files are allowed.", []) := by
  simp [presignedUrlHandler, hu, hl, hf, hb, hbad]

/-- Witness for C6 at a concrete .txt request. -/
theorem presignedUrl_invalid_extension_rejected_witness :
    ¬ extensionOf "notes.txt" ∈ validExtensions ∧
    presignedUrlHandler ⟨"hiready-videos"⟩ ⟨"u1", "L1", "notes.txt", "text/plain"⟩ =
      (PresignResult.badRequest "Invalid file type. Only video files are allowed.", []) :=
  ⟨by decide,
   presignedUrl_invalid_extension_rejected ⟨"hiready-videos"⟩
     ⟨"u1", "L1", "notes.txt", "text/plain"⟩
     (by decide) (by decide) (by decide) (by decide) (by decide)⟩

/-- C8 counterexample: the claim says a stream request for a key absent
from the object store fails with NotFoundError; on the code, presigning
never consults the store, so the request for a key that is not stored
still answers with a presigned URL, not with the 404 response. -/
theorem streamUrl_missing_key_counterexample :
    ¬ ("u1/L1/video.mp4" ∈ ([] : List String)) ∧
    (streamHandler ⟨"hiready-videos"⟩ [] "u1/L1/video.mp4").fst.isNotFound = false :=
  ⟨by decide, by decide⟩

/-- C8 amended: the stream endpoint's response is independent of the
object-store contents and is never NotFoundError.  With the bucket
configured, a videoKey whose second percent-decoding succeeds is answered
with a presigned GetObject URL with expiry 3600 whether or not the key
exists in the store, and a videoKey on which decodeURIComponent throws
URIError (a malformed escape, as in a stored key containing a literal
percent sign) is answered with the catch's 500 fallback; the NotFoundError
branch is reserved for a NoSuchKey error thrown during URL generation,
which the local signing computation never produces, so a missing key is
not detected by this endpoint. -/
theorem streamUrl_store_independent_never_notFound
    (cfg : R2Config) (store store2 : List String) (videoKey : String)
    (hb : cfg.bucketName ≠ "") :
    streamHandler cfg store videoKey = streamHandler cfg store2 videoKey ∧
    (streamHandler cfg store videoKey).fst.isNotFound = false ∧
    (∀ dk, decodeURIComponent videoKey = some dk →
      streamHandler cfg store videoKey =
        (StreamResult.ok (getSignedUrl (S3Command.getObject cfg.bucketName dk) 3600) 3600,
         [getSignedUrl (S3Command.getObject cfg.bucketName dk) 3600])) ∧
    (decodeURIComponent videoKey = none →
      streamHandler cfg store videoKey =
        (StreamResult.serverError "Failed to generate stream URL", [])) := by
  refine ⟨rfl, ?_, ?_, ?_⟩
  · cases hdec : decodeURIComponent videoKey <;>
      simp [streamHandler, hb, hdec, StreamResult.isNotFound]
  · intro dk hdec
    simp [streamHandler, hb, hdec]
  · intro hdec
    simp [streamHandler, hb, hdec]

/-! Fixpoint and trace lemmas for the updater phases. -/

theorem updCourse_courseId (lectureId : String) (segs : List Segment)
    (meta : String) (c : Course) :
    (updCourse lectureId segs meta c).courseId = c.courseId := rfl

theorem updCourse_self (lectureId : String) (segs : List Segment)
    (meta : String) (c : Course) :
    updCourse lectureId segs meta (updCourse lectureId segs meta c)
      = updCourse lectureId segs meta c := by
  simp only [updCourse]
  congr 1
  exact @updateFirst_self_eq _ (fun l => l.lectureId == lectureId)
    (updLecture segs meta) (fun l h => h) (fun l _ => rfl) c.lectures

theorem updCourse_any_lectures (lectureId : String) (segs : List Segment)
    (meta : String) (c : Course) :
    ((updCourse lectureId segs meta c).lectures.any
        (fun l => l.lectureId == lectureId))
      = c.lectures.any (fun l => l.lectureId == lectureId) := by
  simp only [updCourse]
  exact @any_updateFirst _ (fun l => l.lectureId == lectureId)
    (fun l => l.lectureId == lectureId) (updLecture segs meta)
    (fun a => rfl) c.lectures

theorem updLecturer_userId (lectureId : String) (segs : List Segment)
    (meta : String) (L : Lecturer) :
    (updLecturer lectureId segs meta L).userId = L.userId := rfl

theorem updLecturer_self (lectureId : String) (segs : List Segment)
    (meta : String) (L : Lecturer) :
    updLecturer lectureId segs meta (updLecturer lectureId segs meta L)
      = updLecturer lectureId segs meta L := by
  simp only [updLecturer]
  congr 1
  exact @updateFirst_self_eq _ (fun l => l.lectureId == lectureId)
    (updLecture segs meta) (fun l h => h) (fun l _ => rfl) L.lectures

theorem updLecturer_any_lectures (lectureId : String) (segs : List Segment)
    (meta : String) (L : Lecturer) :
    ((updLecturer lectureId segs meta L).lectures.any
        (fun l => l.lectureId == lectureId))
      = L.lectures.any (fun l => l.lectureId == lectureId) := by
  simp only [updLecturer]
  exact @any_updateFirst _ (fun l => l.lectureId == lectureId)
    (fun l => l.lectureId == lectureId) (updLecture segs meta)
    (fun a => rfl) L.lectures

theorem updateCoursePhase_fixpoint (env : UpdEnv) (lectureId courseId : String)
    (segs : List Segment) (meta : String) (cs : List Course) :
    updateCoursePhase env lectureId courseId segs meta
        (updateCoursePhase env lectureId courseId segs meta cs).1
      = updateCoursePhase env lectureId courseId segs meta cs := by
  cases hfind : cs.find? (fun c => c.courseId == courseId) with
  | none => simp [updateCoursePhase, hfind]
  | some c =>
    by_cases hany : c.lectures.any (fun l => l.lectureId == lectureId) = true
    · by_cases hsave : env.courseSaveOk = true
      · have hfind2 :
            ((updateFirst (fun c2 => c2.courseId == courseId)
                (updCourse lectureId segs meta) cs).find?
              (fun c2 => c2.courseId == courseId))
              = some (updCourse lectureId segs meta c) := by
          rw [@find?_updateFirst _ (fun c2 => c2.courseId == courseId)
            (updCourse lectureId segs meta) (fun a h => h) cs, hfind]
          rfl
        simp only [updateCoursePhase, hfind, hany, hsave, if_true]
        rw [hfind2]
        simp only [updCourse_any_lectures, hany, hsave, if_true]
        rw [@updateFirst_self_eq _ (fun c2 => c2.courseId == courseId)
          (updCourse lectureId segs meta) (fun a h => h)
          (fun a _ => updCourse_self lectureId segs meta a) cs]
      · simp [updateCoursePhase, hfind, hany, hsave]
    · simp [updateCoursePhase, hfind, hany]

theorem updateLecturersPhase_fixpoint (env : UpdEnv) (lectureId : String)
    (segs : List Segment) (meta : String) :
    ∀ ls : List Lecturer,
      updateLecturersPhase env lectureId segs meta
          (updateLecturersPhase env lectureId segs meta ls).1
        = updateLecturersPhase env lectureId segs meta ls
  | [] => rfl
  | L :: rest => by
    by_cases hany : L.lectures.any (fun l => l.lectureId == lectureId) = true
    · by_cases hsv : env.lecturerSaveOk L.userId = true
      · simp only [updateLecturersPhase, hany, hsv, if_true]
        simp only [updLecturer_any_lectures, hany, updLecturer_userId, hsv, if_true]
        rw [updLecturer_self, updateLecturersPhase_fixpoint env lectureId segs meta rest]
      · simp [updateLecturersPhase, hany, hsv]
    · simp only [updateLecturersPhase, hany, if_neg, Bool.false_eq_true, if_false]
      rw [updateLecturersPhase_fixpoint env lectureId segs meta rest]

theorem updateCoursePhase_err_state (env : UpdEnv) (lectureId courseId : String)
    (segs : List Segment) (meta : String) (cs : List Course)
    (herr : (updateCoursePhase env lectureId courseId segs meta cs).2.2 = true) :
    (updateCoursePhase env lectureId courseId segs meta cs).1 = cs := by
  cases hfind : cs.find? (fun c => c.courseId == courseId) with
  | none => simp [updateCoursePhase, hfind]
  | some c =>
    by_cases hany : c.lectures.any (fun l => l.lectureId == lectureId) = true
    · by_cases hsave : env.courseSaveOk = true
      · rw [updateCoursePhase, hfind] at herr
        simp [hany, hsave] at herr
      · simp [updateCoursePhase, hfind, hany, hsave]
    · simp [updateCoursePhase, hfind, hany]

/-- Witness for the amended C8: a decodable encoded key under two store
contents (the key absent and present), and a key with a malformed escape
answered by the 500 fallback. -/
theorem streamUrl_store_independent_never_notFound_witness :
    ("hiready-videos" : String) ≠ "" ∧
    decodeURIComponent "u1%2FL1%2Fvideo.mp4" = some "u1/L1/video.mp4" ∧
    streamHandler ⟨"hiready-videos"⟩ [] "u1%2FL1%2Fvideo.mp4" =
        streamHandler ⟨"hiready-videos"⟩ ["u1/L1/video.mp4"] "u1%2FL1%2Fvideo.mp4" ∧
    streamHandler ⟨"hiready-videos"⟩ [] "u1%2FL1%2Fvideo.mp4" =
      (StreamResult.ok (getSignedUrl
          (S3Command.getObject "hiready-videos" "u1/L1/video.mp4") 3600) 3600,
       [getSignedUrl (S3Command.getObject "hiready-videos" "u1/L1/video.mp4") 3600]) ∧
    decodeURIComponent "100%.mp4" = none ∧
    streamHandler ⟨"hiready-videos"⟩ [] "100%.mp4" =
      (StreamResult.serverError "Failed to generate stream URL", []) :=
  ⟨by decide, by decide,
   (streamUrl_store_independent_never_notFound ⟨"hiready-videos"⟩ []
     ["u1/L1/video.mp4"] "u1%2FL1%2Fvideo.mp4" (by decide)).1,
   (streamUrl_store_independent_never_notFound ⟨"hiready-videos"⟩ []
     ["u1/L1/video.mp4"] "u1%2FL1%2Fvideo.mp4" (by decide)).2.2.1
     "u1/L1/video.mp4" (by decide),
   by decide,
   (streamUrl_store_independent_never_notFound ⟨"hiready-videos"⟩ []
     ["whatever"] "100%.mp4" (by decide)).2.2.2 (by decide)⟩

/-- C3: ApplySegments is idempotent on the store: applying the same
(lectureId, courseId, segments, metadata, videoId) twice in succession,
under the same save outcomes, leaves the whole document-store state (hence
every stored lecture segment list, in the Course document and in every
matching Lecturer aggregate) identical to the state after one application. -/
theorem applySegments_idempotent (env : UpdEnv) (lectureId courseId : String)
    (segments : List InputSegment) (fullAiData videoId : Option String)
    (st : DBState) :
    (updateLectureWithSegments env lectureId courseId segments fullAiData videoId
        (updateLectureWithSegments env lectureId courseId segments fullAiData videoId
          st).state).state
      = (updateLectureWithSegments env lectureId courseId segments fullAiData videoId
          st).state := by
  by_cases herr :
      (updateCoursePhase env lectureId courseId (segments.map normalizeSegment)
        (fullAiData.getD emptyMeta) st.courses).2.2 = true
  · have h1 : (updateLectureWithSegments env lectureId courseId segments fullAiData
        videoId st).state = st := by
      simp only [updateLectureWithSegments, herr, if_true]
      rw [updateCoursePhase_err_state env lectureId courseId
        (segments.map normalizeSegment) (fullAiData.getD emptyMeta) st.courses herr]
    rw [h1]
    exact h1
  · simp only [updateLectureWithSegments, herr, if_false, Bool.false_eq_true]
    simp only [updateCoursePhase_fixpoint, updateLecturersPhase_fixpoint, herr,
      if_false, Bool.false_eq_true]

theorem updateCoursePhase_allOk_not_errored (lectureId courseId : String)
    (segs : List Segment) (meta : String) (cs : List Course) :
    (updateCoursePhase allSavesOk lectureId courseId segs meta cs).2.2 = false := by
  cases hfind : cs.find? (fun c => c.courseId == courseId) with
  | none => simp [updateCoursePhase, hfind]
  | some c =>
    by_cases hany : c.lectures.any (fun l => l.lectureId == lectureId) = true
    · simp [updateCoursePhase, hfind, hany, allSavesOk]
    · simp [updateCoursePhase, hfind, hany]

theorem updateCoursePhase_trace_all_courseWrites (env : UpdEnv)
    (lectureId courseId : String) (segs : List Segment) (meta : String)
    (cs : List Course) :
    ∀ e ∈ (updateCoursePhase env lectureId courseId segs meta cs).2.1,
      e = WriteEvent.courseWrite courseId segs := by
  cases hfind : cs.find? (fun c => c.courseId == courseId) with
  | none => simp [updateCoursePhase, hfind]
  | some c =>
    by_cases hany : c.lectures.any (fun l => l.lectureId == lectureId) = true
    · by_cases hsave : env.courseSaveOk = true
      · simp [updateCoursePhase, hfind, hany, hsave]
      · simp [updateCoursePhase, hfind, hany, hsave]
    · simp [updateCoursePhase, hfind, hany]

theorem updateLecturersPhase_trace_all_lecturerWrites (env : UpdEnv)
    (lectureId : String) (segs : List Segment) (meta : String) :
    ∀ ls : List Lecturer,
      ∀ e ∈ (updateLecturersPhase env lectureId segs meta ls).2.1,
        ∃ u, e = WriteEvent.lecturerWrite u segs
  | [] => by simp [updateLecturersPhase]
  | L :: rest => by
    by_cases hany : L.lectures.any (fun l => l.lectureId == lectureId) = true
    · by_cases hsv : env.lecturerSaveOk L.userId = true
      · simp only [updateLecturersPhase, hany, hsv, if_true]
        intro e he
        rcases List.mem_cons.mp he with h | h
        · exact ⟨L.userId, h⟩
        · exact updateLecturersPhase_trace_all_lecturerWrites env lectureId segs meta rest e h
      · simp [updateLecturersPhase, hany, hsv]
    · simp only [updateLecturersPhase, hany, if_neg, Bool.false_eq_true, if_false]
      exact updateLecturersPhase_trace_all_lecturerWrites env lectureId segs meta rest

theorem updateLecturersPhase_allOk_covers (lectureId : String)
    (segs : List Segment) (meta : String) :
    ∀ ls : List Lecturer, ∀ L ∈ ls,
      L.lectures.any (fun l => l.lectureId == lectureId) = true →
      WriteEvent.lecturerWrite L.userId segs
        ∈ (updateLecturersPhase allSavesOk lectureId segs meta ls).2.1
  | [] => by simp
  | L0 :: rest => by
    intro L hL hmatch
    by_cases hany : L0.lectures.any (fun l => l.lectureId == lectureId) = true
    · simp only [updateLecturersPhase, hany, allSavesOk, if_true]
      rcases List.mem_cons.mp hL with h | h
      · subst h
        exact List.mem_cons_self _ _
      · exact List.mem_cons_of_mem _
          (updateLecturersPhase_allOk_covers lectureId segs meta rest L h hmatch)
    · simp only [updateLecturersPhase, hany, if_neg, Bool.false_eq_true, if_false]
      rcases List.mem_cons.mp hL with h | h
      · subst h
        exact absurd hmatch hany
      · exact updateLecturersPhase_allOk_covers lectureId segs meta rest L h hmatch

/-- C7: in a failure-free invocation of ApplySegments, the write trace is
the course writes followed by the lecturer writes (so the Course document
write occurs before any Lecturer write), every trace entry carries the same
normalized segment list, and every Lecturer aggregate containing a lecture
with the matching lectureId receives that overwrite, the saves being issued
sequentially in collection order. -/
theorem applySegments_course_write_first (lectureId courseId : String)
    (segments : List InputSegment) (fullAiData videoId : Option String)
    (st : DBState) :
    ∃ trC trL,
      (updateLectureWithSegments allSavesOk lectureId courseId segments fullAiData
        videoId st).trace = trC ++ trL ∧
      (∀ e ∈ trC, e = WriteEvent.courseWrite courseId (segments.map normalizeSegment)) ∧
      (∀ e ∈ trL, ∃ u, e = WriteEvent.lecturerWrite u (segments.map normalizeSegment)) ∧
      (∀ L ∈ st.lecturers,
        L.lectures.any (fun l => l.lectureId == lectureId) = true →
        WriteEvent.lecturerWrite L.userId (segments.map normalizeSegment) ∈ trL) := by
  refine ⟨(updateCoursePhase allSavesOk lectureId courseId
      (segments.map normalizeSegment) (fullAiData.getD emptyMeta) st.courses).2.1,
    (updateLecturersPhase allSavesOk lectureId
      (segments.map normalizeSegment) (fullAiData.getD emptyMeta) st.lecturers).2.1,
    ?_, ?_, ?_, ?_⟩
  · simp [updateLectureWithSegments, updateCoursePhase_allOk_not_errored]
  · exact updateCoursePhase_trace_all_courseWrites allSavesOk lectureId courseId
      (segments.map normalizeSegment) (fullAiData.getD emptyMeta) st.courses
  · exact updateLecturersPhase_trace_all_lecturerWrites allSavesOk lectureId
      (segments.map normalizeSegment) (fullAiData.getD emptyMeta) st.lecturers
  · exact updateLecturersPhase_allOk_covers lectureId
      (segments.map normalizeSegment) (fullAiData.getD emptyMeta) st.lecturers

theorem updateLecturersPhase_no_match (env : UpdEnv) (lectureId : String)
    (segs : List Segment) (meta : String) :
    ∀ ls : List Lecturer,
      (∀ L ∈ ls, L.lectures.any (fun l => l.lectureId == lectureId) = false) →
      updateLecturersPhase env lectureId segs meta ls = (ls, [], false)
  | [] => fun _ => rfl
  | L :: rest => by
    intro h
    have hL : L.lectures.any (fun l => l.lectureId == lectureId) = false :=
      h L (List.mem_cons_self _ _)
    have hrest := updateLecturersPhase_no_match env lectureId segs meta rest
      (fun L2 hL2 => h L2 (List.mem_cons_of_mem _ hL2))
    simp [updateLecturersPhase, hL, hrest]

/-- C10: a segmentation webhook request carrying lectureId and segments is
answered with HTTP 200 success for every save-outcome environment (every
error thrown while persisting is caught inside the updater, never surfacing
as an error response), and when no Course matches the courseId and no
Lecturer contains a lecture with the lectureId, the updater silently
performs no write and leaves the store unchanged. -/
theorem segmentationComplete_ok_and_silent_noop (env : UpdEnv)
    (req : WebhookReq) (st : DBState)
    (hl : req.lectureId ≠ "") (hs : req.segments ≠ none) :
    (segmentationComplete env req st).fst = WebhookResult.ok "Segments updated" ∧
    ((∀ c ∈ st.courses, ¬ c.courseId = req.courseId) →
     (∀ L ∈ st.lecturers, ∀ l ∈ L.lectures, ¬ l.lectureId = req.lectureId) →
     (segmentationComplete env req st).snd.state = st ∧
     (segmentationComplete env req st).snd.trace = []) := by
  constructor
  · simp [segmentationComplete, hl, hs]
  · intro hc hL
    have hfind : st.courses.find? (fun c => c.courseId == req.courseId) = none := by
      rw [List.find?_eq_none]
      intro c hcin
      simpa using hc c hcin
    have hphC : updateCoursePhase env req.lectureId req.courseId
        ((req.segments.getD []).map normalizeSegment)
        ((req.rawAiMetaData).getD emptyMeta) st.courses
        = (st.courses, [], false) := by
      simp [updateCoursePhase, hfind]
    have hanyL : ∀ L ∈ st.lecturers,
        L.lectures.any (fun l => l.lectureId == req.lectureId) = false := by
      intro L hLin
      rw [List.any_eq_false]
      intro l hlin
      simpa using hL L hLin l hlin
    have hphL := updateLecturersPhase_no_match env req.lectureId
      ((req.segments.getD []).map normalizeSegment)
      ((req.rawAiMetaData).getD emptyMeta) st.lecturers hanyL
    simp [segmentationComplete, hl, hs, updateLectureWithSegments, hphC, hphL]

/-- Witness for C10 at a concrete request with an empty store and an
environment in which every save would throw. -/
theorem segmentationComplete_ok_and_silent_noop_witness :
    ("L1" : String) ≠ "" ∧ (some ([] : List InputSegment) ≠ none) ∧
    (segmentationComplete ⟨false, fun _ => false⟩
        ⟨"L1", "C1", some [], none, none⟩ ⟨[], []⟩).fst
      = WebhookResult.ok "Segments updated" ∧
    (segmentationComplete ⟨false, fun _ => false⟩
        ⟨"L1", "C1", some [], none, none⟩ ⟨[], []⟩).snd.state = ⟨[], []⟩ ∧
    (segmentationComplete ⟨false, fun _ => false⟩
        ⟨"L1", "C1", some [], none, none⟩ ⟨[], []⟩).snd.trace = [] := by
  have h := segmentationComplete_ok_and_silent_noop ⟨false, fun _ => false⟩
    ⟨"L1", "C1", some [], none, none⟩ ⟨[], []⟩ (by decide) (by decide)
  have h2 := h.2 (by simp) (by simp)
  exact ⟨by decide, by decide, h.1, h2.1, h2.2⟩

/-- The ok-path of POST /upload/complete, in closed form: when the required
fields are present, the course is found and owned by the caller, the
response is success with the always-empty segments accumulator and
indexingInProgress set exactly when a task id was obtained, and the lecture
record is upserted into the found course and the caller's lecturer
aggregate. -/
theorem completeUpload_ok_eq (env : FlaskEnv) (req : CompleteReq) (now : Nat)
    (st : DBState) (c : Course)
    (hu : req.userId ≠ "") (hl : req.lectureId ≠ "") (hv : req.videoKey ≠ "")
    (hc : req.courseId ≠ "")
    (hfind : st.courses.find? (fun x => x.courseId == req.courseId) = some c)
    (hown : c.instructorId = req.userId) :
    completeUpload env req now st =
      (CompleteResult.ok
        (if (taskIdObtained env).isSome then
          "Upload completed. Video indexing is processing in the background (may take 15+ minutes). Segments will appear automatically when ready."
        else "Upload completed and database updated")
        req.lectureId [] (taskIdObtained env).isSome,
       { courses :=
           updateFirst (fun x => x.courseId == req.courseId)
             (fun x => { x with lectures :=
                 upsertByLectureId req.lectureId (lectureDataOf req now) x.lectures })
             st.courses
         lecturers :=
           match st.lecturers.find? (fun L => L.userId == req.userId) with
           | none => st.lecturers ++ [{ userId := req.userId, lectures := [lectureDataOf req now] }]
           | some _ =>
             updateFirst (fun L => L.userId == req.userId)
               (fun L => { L with lectures :=
                   upsertByLectureId req.lectureId (lectureDataOf req now) L.lectures })
               st.lecturers }) := by
  have h1 : ¬ (req.userId = "" ∨ req.lectureId = "" ∨ req.videoKey = "" ∨ req.courseId = "") := by
    simp [hu, hl, hv, hc]
  have h2 : ¬ c.instructorId ≠ req.userId := by simp [hown]
  unfold completeUpload
  rw [if_neg h1]
  simp only [hfind]
  rw [if_neg h2]
  cases hto : taskIdObtained env with
  | none => rfl
  | some t => rfl

/-- C2: a completion request with the required fields present that names a
course owned by a different instructor fails with PermissionError and
performs no document-store write (the state is returned unchanged); a
request naming a course that does not exist fails with NotFoundError,
likewise without a write. -/
theorem completeUpload_denied_performs_no_writes (env : FlaskEnv)
    (req : CompleteReq) (now : Nat) (st : DBState)
    (hu : req.userId ≠ "") (hl : req.lectureId ≠ "") (hv : req.videoKey ≠ "")
    (hc : req.courseId ≠ "") :
    (∀ c, st.courses.find? (fun x => x.courseId == req.courseId) = some c →
      c.instructorId ≠ req.userId →
      completeUpload env req now st = (CompleteResult.forbidden "Permission denied", st)) ∧
    (st.courses.find? (fun x => x.courseId == req.courseId) = none →
      completeUpload env req now st =
        (CompleteResult.notFound ("Course " ++ req.courseId ++ " not found."), st)) := by
  have h1 : ¬ (req.userId = "" ∨ req.lectureId = "" ∨ req.videoKey = "" ∨ req.courseId = "") := by
    simp [hu, hl, hv, hc]
  constructor
  · intro c hfind hneq
    unfold completeUpload
    rw [if_neg h1]
    simp only [hfind]
    rw [if_pos hneq]
  · intro hfind
    unfold completeUpload
    rw [if_neg h1]
    simp only [hfind]

/-- Witness for C2: the concrete one-course store, once under a caller who
is not the owner and once under a missing courseId; both answers carry the
unchanged store. -/
theorem completeUpload_denied_performs_no_writes_witness :
    stOneCourse.courses.find? (fun x => x.courseId == "C1") = some courseC1 ∧
    courseC1.instructorId ≠ "intruder" ∧
    completeUpload envNoFlask ⟨"intruder", "L1", "k1", "T", "C1"⟩ 0 stOneCourse =
      (CompleteResult.forbidden "Permission denied", stOneCourse) ∧
    stOneCourse.courses.find? (fun x => x.courseId == "C2") = none ∧
    completeUpload envNoFlask ⟨"owner1", "L1", "k1", "T", "C2"⟩ 0 stOneCourse =
      (CompleteResult.notFound "Course C2 not found.", stOneCourse) := by
  have hA := (completeUpload_denied_performs_no_writes envNoFlask
    ⟨"intruder", "L1", "k1", "T", "C1"⟩ 0 stOneCourse
    (by decide) (by decide) (by decide) (by decide)).1 courseC1 (by decide) (by decide)
  have hB := (completeUpload_denied_performs_no_writes envNoFlask
    ⟨"owner1", "L1", "k1", "T", "C2"⟩ 0 stOneCourse
    (by decide) (by decide) (by decide) (by decide)).2 (by decide)
  exact ⟨by decide, by decide, hA, by decide, hB⟩

/-- C1: a well-formed completion request by the course owner whose
AI-service health check fails on the initial try and both retries still
answers HTTP success with indexingInProgress false, and the lecture record
is upserted into both the Course document and the caller's Lecturer
aggregate with no stored segments (an empty observable segment list). -/
theorem completeUpload_flask_down_degrades (env : FlaskEnv) (req : CompleteReq)
    (now : Nat) (st : DBState) (c : Course)
    (hu : req.userId ≠ "") (hl : req.lectureId ≠ "") (hv : req.videoKey ≠ "")
    (hc : req.courseId ≠ "")
    (hfind : st.courses.find? (fun x => x.courseId == req.courseId) = some c)
    (hown : c.instructorId = req.userId)
    (hhealth : ∀ i, i ≤ 2 → env.healthAttempts i = none) :
    (completeUpload env req now st).fst
        = CompleteResult.ok "Upload completed and database updated" req.lectureId [] false ∧
    (∃ c2, (completeUpload env req now st).snd.courses.find?
        (fun x => x.courseId == req.courseId) = some c2 ∧
      ∃ l, c2.lectures.find? (fun x => x.lectureId == req.lectureId) = some l ∧
        l.lectureSegments = none ∧ l.lectureSegments.getD [] = []) ∧
    (∃ L, (completeUpload env req now st).snd.lecturers.find?
        (fun x => x.userId == req.userId) = some L ∧
      ∃ l, L.lectures.find? (fun x => x.lectureId == req.lectureId) = some l ∧
        l.lectureSegments = none ∧ l.lectureSegments.getD [] = []) := by
  have htask : taskIdObtained env = none := by
    unfold taskIdObtained
    rw [tryFlask_eq_none_of_attempts hhealth]
  have hmain := completeUpload_ok_eq env req now st c hu hl hv hc hfind hown
  rw [htask] at hmain
  refine ⟨?_, ?_, ?_⟩
  · rw [hmain]
    rfl
  · rw [hmain]
    refine ⟨{ c with lectures :=
        upsertByLectureId req.lectureId (lectureDataOf req now) c.lectures },
      ?_, lectureDataOf req now, ?_, rfl, rfl⟩
    · rw [@find?_updateFirst _ (fun x => x.courseId == req.courseId)
        (fun x => { x with lectures :=
            upsertByLectureId req.lectureId (lectureDataOf req now) x.lectures })
        (fun a h => h) st.courses, hfind]
      rfl
    · exact @find?_upsertByLectureId req.lectureId (lectureDataOf req now) rfl c.lectures
  · rw [hmain]
    cases hfl : st.lecturers.find? (fun L => L.userId == req.userId) with
    | none =>
      refine ⟨({ userId := req.userId, lectures := [lectureDataOf req now] } : Lecturer), ?_,
        lectureDataOf req now, ?_, rfl, rfl⟩
      · simp only [hfl]
        rw [find?_append_none hfl]
        simp [List.find?_cons]
      · simp [List.find?_cons, lectureDataOf]
    | some L0 =>
      refine ⟨{ L0 with lectures :=
          upsertByLectureId req.lectureId (lectureDataOf req now) L0.lectures },
        ?_, lectureDataOf req now, ?_, rfl, rfl⟩
      · simp only [hfl]
        rw [@find?_updateFirst _ (fun L => L.userId == req.userId)
          (fun L => { L with lectures :=
              upsertByLectureId req.lectureId (lectureDataOf req now) L.lectures })
          (fun a h => h) st.lecturers, hfl]
        rfl
      · exact @find?_upsertByLectureId req.lectureId (lectureDataOf req now) rfl L0.lectures

/-- Witness for C1: the concrete one-course store under its owner with
every Flask attempt failing. -/
theorem completeUpload_flask_down_degrades_witness :
    stOneCourse.courses.find? (fun x => x.courseId == exReq.courseId) = some courseC1 ∧
    courseC1.instructorId = exReq.userId ∧
    (∀ i, i ≤ 2 → envNoFlask.healthAttempts i = none) ∧
    ((completeUpload envNoFlask exReq 0 stOneCourse).fst
        = CompleteResult.ok "Upload completed and database updated" exReq.lectureId [] false ∧
    (∃ c2, (completeUpload envNoFlask exReq 0 stOneCourse).snd.courses.find?
        (fun x => x.courseId == exReq.courseId) = some c2 ∧
      ∃ l, c2.lectures.find? (fun x => x.lectureId == exReq.lectureId) = some l ∧
        l.lectureSegments = none ∧ l.lectureSegments.getD [] = []) ∧
    (∃ L, (completeUpload envNoFlask exReq 0 stOneCourse).snd.lecturers.find?
        (fun x => x.userId == exReq.userId) = some L ∧
      ∃ l, L.lectures.find? (fun x => x.lectureId == exReq.lectureId) = some l ∧
        l.lectureSegments = none ∧ l.lectureSegments.getD [] = [])) :=
  ⟨by decide, rfl, fun i h => rfl,
   completeUpload_flask_down_degrades envNoFlask exReq 0 stOneCourse courseC1
     (by decide) (by decide) (by decide) (by decide) (by decide) rfl (fun i h => rfl)⟩

/-- C9: every successful completion response carries the empty segments
accumulator and indexingInProgress exactly when a task id was obtained from
the indexing call, and the synchronously upserted lecture record (in the
Course document and the caller's Lecturer aggregate) has no stored segments
and empty rawAiMetaData: the accumulator is never populated before the
upsert or the response. -/
theorem completeUpload_sync_upsert_always_empty (env : FlaskEnv)
    (req : CompleteReq) (now : Nat) (st : DBState)
    (msg lid : String) (segs : List InputSegment) (idx : Bool) (st2 : DBState)
    (hok : completeUpload env req now st = (CompleteResult.ok msg lid segs idx, st2)) :
    segs = [] ∧ idx = (taskIdObtained env).isSome ∧
    (∃ c2, st2.courses.find? (fun x => x.courseId == req.courseId) = some c2 ∧
      ∃ l, c2.lectures.find? (fun x => x.lectureId == req.lectureId) = some l ∧
        l.lectureSegments = none ∧ l.rawAiMetaData = emptyMeta) ∧
    (∃ L, st2.lecturers.find? (fun x => x.userId == req.userId) = some L ∧
      ∃ l, L.lectures.find? (fun x => x.lectureId == req.lectureId) = some l ∧
        l.lectureSegments = none ∧ l.rawAiMetaData = emptyMeta) := by
  by_cases h1 : (req.userId = "" ∨ req.lectureId = "" ∨ req.videoKey = "" ∨ req.courseId = "")
  · exfalso
    unfold completeUpload at hok
    rw [if_pos h1] at hok
    simp at hok
  · cases hfind : st.courses.find? (fun x => x.courseId == req.courseId) with
    | none =>
      exfalso
      unfold completeUpload at hok
      rw [if_neg h1] at hok
      simp only [hfind] at hok
      simp at hok
    | some c =>
      by_cases hown2 : c.instructorId ≠ req.userId
      · exfalso
        unfold completeUpload at hok
        rw [if_neg h1] at hok
        simp only [hfind] at hok
        rw [if_pos hown2] at hok
        simp at hok
      · have hown : c.instructorId = req.userId := not_not.mp hown2
        push_neg at h1
        have hmain := completeUpload_ok_eq env req now st c h1.1 h1.2.1 h1.2.2.1 h1.2.2.2
          hfind hown
        rw [hmain] at hok
        rw [Prod.mk.injEq] at hok
        obtain ⟨hfst, hsnd⟩ := hok
        rw [CompleteResult.ok.injEq] at hfst
        obtain ⟨hmsg, hlid, hsegs, hidx⟩ := hfst
        subst hsnd
        refine ⟨hsegs.symm, hidx.symm, ?_, ?_⟩
        · refine ⟨{ c with lectures :=
              upsertByLectureId req.lectureId (lectureDataOf req now) c.lectures },
            ?_, lectureDataOf req now, ?_, rfl, rfl⟩
          · rw [@find?_updateFirst _ (fun x => x.courseId == req.courseId)
              (fun x => { x with lectures :=
                  upsertByLectureId req.lectureId (lectureDataOf req now) x.lectures })
              (fun a h => h) st.courses, hfind]
            rfl
          · exact @find?_upsertByLectureId req.lectureId (lectureDataOf req now) rfl c.lectures
        · cases hfl : st.lecturers.find? (fun L => L.userId == req.userId) with
          | none =>
            refine ⟨({ userId := req.userId, lectures := [lectureDataOf req now] } : Lecturer),
              ?_, lectureDataOf req now, ?_, rfl, rfl⟩
            · simp only [hfl]
              rw [find?_append_none hfl]
              simp [List.find?_cons]
            · simp [List.find?_cons, lectureDataOf]
          | some L0 =>
            refine ⟨{ L0 with lectures :=
                upsertByLectureId req.lectureId (lectureDataOf req now) L0.lectures },
              ?_, lectureDataOf req now, ?_, rfl, rfl⟩
            · simp only [hfl]
              rw [@find?_updateFirst _ (fun L => L.userId == req.userId)
                (fun L => { L with lectures :=
                    upsertByLectureId req.lectureId (lectureDataOf req now) L.lectures })
                (fun a h => h) st.lecturers, hfl]
              rfl
            · exact @find?_upsertByLectureId req.lectureId (lectureDataOf req now) rfl L0.lectures

/-- Witness for C9: the concrete owner request against the one-course
store, with every Flask attempt failing, evaluates to a successful
response, on which the theorem is instantiated. -/
theorem completeUpload_sync_upsert_always_empty_witness :
    completeUpload envNoFlask exReq 0 stOneCourse =
      (CompleteResult.ok "Upload completed and database updated" "L1" [] false,
       (completeUpload envNoFlask exReq 0 stOneCourse).snd) ∧
    (([] : List InputSegment) = [] ∧ false = (taskIdObtained envNoFlask).isSome ∧
    (∃ c2, (completeUpload envNoFlask exReq 0 stOneCourse).snd.courses.find?
        (fun x => x.courseId == exReq.courseId) = some c2 ∧
      ∃ l, c2.lectures.find? (fun x => x.lectureId == exReq.lectureId) = some l ∧
        l.lectureSegments = none ∧ l.rawAiMetaData = emptyMeta) ∧
    (∃ L, (completeUpload envNoFlask exReq 0 stOneCourse).snd.lecturers.find?
        (fun x => x.userId == exReq.userId) = some L ∧
      ∃ l, L.lectures.find? (fun x => x.lectureId == exReq.lectureId) = some l ∧
        l.lectureSegments = none ∧ l.rawAiMetaData = emptyMeta)) :=
  ⟨by decide,
   completeUpload_sync_upsert_always_empty envNoFlask exReq 0 stOneCourse
     "Upload completed and database updated" "L1" [] false
     (completeUpload envNoFlask exReq 0 stOneCourse).snd (by decide)⟩

end HiReady